import Mathlib

/-!
Shallow embedding of the selection-filtering, file-naming and
configuration-resolution logic of the go-dkci repository
(Docker image export/import tool).

Sources embedded:
- the docker package: ExportImages / ExportImage / DeleteImages / DeleteImage
- the cloud package: ExportImagesToCloud / ExportImageToCloud /
  ImportImagesFromCloud / downloadAndImportFromCloud
- the docker import code: ImportImagesFromSource / importFromDirectory /
  importFromFile / findTarFilesInDirectory
- config package: GetBDFSConfig

Go strings are modelled as Lean `String`; the byte-level Go string
operations used by the code (strings.Contains, strings.HasSuffix,
strings.Split on ":", strings.ReplaceAll of "/", strings.ToLower,
strings.TrimSuffix, filepath.Base, filepath.Ext) are re-implemented
over the character list `String.data`, which agrees with the byte-level
semantics on the valid UTF-8 strings Go manipulates here.
-/

namespace GoDkci

/-- Embeds Go `strings.Contains(s, sub)`: auxiliary scan over the
character list, true when `pat` occurs as a contiguous sublist. -/
def charsContains (pat : List Char) : List Char → Bool
  | [] => pat.isEmpty
  | c :: cs => pat.isPrefixOf (c :: cs) || charsContains pat cs

/-- Go `strings.Contains(s, sub)`. -/
def goContains (s sub : String) : Bool :=
  charsContains sub.data s.data

/-- Go `strings.HasSuffix(s, suffix)`. -/
def goHasSuffix (s suf : String) : Bool :=
  List.isSuffixOf suf.data s.data

/-- Go `strings.ToLower`, restricted to the ASCII case mapping, which is
all the code relies on (the suffixes compared against are ASCII). -/
def goToLower (s : String) : String :=
  String.mk (s.data.map Char.toLower)

/-- Go `strings.TrimSuffix(s, suffix)`. -/
def goTrimSuffix (s suf : String) : String :=
  if goHasSuffix s suf then String.mk (s.data.take (s.data.length - suf.data.length)) else s

/-- Go `filepath.Base(p)`: "." for the empty path, "/" for an all-slash
path, otherwise the last element after stripping trailing slashes. -/
def goBase (p : String) : String :=
  if p = "" then "."
  else
    let stripped := (p.data.reverse.dropWhile (fun c => c = '/')).reverse
    if stripped.isEmpty then "/"
    else String.mk ((stripped.reverse.takeWhile (fun c => c ≠ '/')).reverse)

/-- Go `filepath.Ext(p)`: the suffix starting at the final dot of the
final path element, empty when that element has no dot. -/
def goExt (p : String) : String :=
  let seg := p.data.reverse.takeWhile (fun c => c ≠ '/')
  let pre := seg.takeWhile (fun c => c ≠ '.')
  if pre.length = seg.length then ""
  else String.mk ('.' :: pre.reverse)

/-! ### Name/Filter Engine (docker.ExportImage, cloud.ExportImageToCloud) -/

/-- Embeds `strings.ReplaceAll(imageNameOnly, "/", "·")` from ExportImage:
since the pattern is the single character `/`, ReplaceAll is the
character-wise replacement of `/` by `·` (U+00B7). -/
def sanitizeName (s : String) : String :=
  String.mk (s.data.map (fun c => if c = '/' then '·' else c))

/-- Embeds `strings.Join(elems, sep)`. -/
def goJoin (sep : String) : List String → String
  | [] => ""
  | [x] => x
  | x :: y :: xs => x ++ sep ++ goJoin sep (y :: xs)

/-- Embeds the `suffixParts` slice built in ExportImage / ExportImageToCloud:
tag defaulting to "latest", OS and architecture each defaulting to
"unknown" when empty, appended in that order. -/
def suffixParts (tag osInfo archInfo : String) : List String :=
  ((([] : List String)
    ++ (if tag ≠ "" then [tag] else ["latest"]))
    ++ (if osInfo ≠ "" then [osInfo] else ["unknown"]))
    ++ (if archInfo ≠ "" then [archInfo] else ["unknown"])

/-- Embeds the filename computation of ExportImage / ExportImageToCloud
after the name/tag split: `fmt.Sprintf("%s_%s.tar", sanitizedImageName,
strings.Join(suffixParts, "_"))`. -/
def canonicalFilename (imageNameOnly tag osInfo archInfo : String) : String :=
  sanitizeName imageNameOnly ++ "_" ++ goJoin "_" (suffixParts tag osInfo archInfo) ++ ".tar"

/-- Embeds `nameParts := strings.Split(imageName, ":")`,
`imageNameOnly := nameParts[0]`, `tag := nameParts[1]` when present:
the name is the text before the first `:`, the tag the text between the
first and second `:` (empty when there is no `:`). -/
def splitNameTag (imageName : String) : String × String :=
  let cs := imageName.data
  let name := String.mk (cs.takeWhile (fun c => c ≠ ':'))
  match cs.dropWhile (fun c => c ≠ ':') with
  | [] => (name, "")
  | _ :: rest => (name, String.mk (rest.takeWhile (fun c => c ≠ ':')))

/-- The full export filename computed by ExportImage / ExportImageToCloud
for a user-visible image reference (name plus optional tag) and the
inspected OS / architecture strings. -/
def exportFileNameFor (imageName osInfo archInfo : String) : String :=
  canonicalFilename (splitNameTag imageName).1 (splitNameTag imageName).2 osInfo archInfo

/-! ### Substring filters, one per data source (Contract B sites) -/

/-- Embeds the grep filter applied to a daemon repo tag in ExportImages,
DeleteImages and ExportImagesToCloud: accept when the pattern is empty,
otherwise when `strings.Contains(tag, pattern)`. -/
def daemonGrepFilter (tag pattern : String) : Bool :=
  if pattern ≠ "" then goContains tag pattern else true

/-- Embeds the grep filter applied to an extension-stripped base name in
findTarFilesInDirectory (local directory scan). -/
def dirScanGrepFilter (baseName pattern : String) : Bool :=
  if pattern ≠ "" then goContains baseName pattern else true

/-- Embeds the grep filter applied to an extension-stripped base name in
ImportImagesFromCloud (remote file listing). -/
def cloudListGrepFilter (baseName pattern : String) : Bool :=
  if pattern ≠ "" then goContains baseName pattern else true

/-! ### Tar-candidate discovery -/

/-- Embeds findTarFilesInDirectory, with the recursive `filepath.Walk`
replaced by the list of non-directory file paths it visits, in order:
keep a path when its base name lowercased ends in ".tar", ".tar.gz" or
".tgz" and the grep filter accepts its extension-stripped base name. -/
def findTarFilesInDirectory (paths : List String) (grepPattern : String) : List String :=
  paths.filter (fun path =>
    (goHasSuffix (goToLower (goBase path)) ".tar"
      || goHasSuffix (goToLower (goBase path)) ".tar.gz"
      || goHasSuffix (goToLower (goBase path)) ".tgz")
    && dirScanGrepFilter (goTrimSuffix (goBase path) (goExt path)) grepPattern)

/-- Embeds the directory branch of ImportImagesFromCloud that filters the
listed cloud files down to tar candidates; the suffix test is applied to
the lowercased full remote path (`file.Path`), the grep filter to the
extension-stripped base name. -/
def cloudTarCandidates (paths : List String) (grepPattern : String) : List String :=
  paths.filter (fun path =>
    (goHasSuffix (goToLower path) ".tar"
      || goHasSuffix (goToLower path) ".tar.gz"
      || goHasSuffix (goToLower path) ".tgz")
    && cloudListGrepFilter (goTrimSuffix (goBase path) (goExt path)) grepPattern)

/-! ### Daemon candidate lists (tag exclusion plus grep) -/

/-- Embeds the image-name loop of ExportImages: for every image, keep each
repo tag that is not "<none>:<none>" and passes the grep filter. -/
def exportCandidates (images : List (List String)) (pattern : String) : List String :=
  images.flatMap (fun repoTags =>
    repoTags.filter (fun tag => (tag != "<none>:<none>") && daemonGrepFilter tag pattern))

/-- Embeds the image-name loop of DeleteImages. -/
def deleteCandidates (images : List (List String)) (pattern : String) : List String :=
  images.flatMap (fun repoTags =>
    repoTags.filter (fun tag => (tag != "<none>:<none>") && daemonGrepFilter tag pattern))

/-- Embeds the image-name loop of ExportImagesToCloud. -/
def cloudExportCandidates (images : List (List String)) (pattern : String) : List String :=
  images.flatMap (fun repoTags =>
    repoTags.filter (fun tag => (tag != "<none>:<none>") && daemonGrepFilter tag pattern))

/-! ### "All" sentinel reconciliation, one definition per operation -/

/-- Embeds the "All" handling of ExportImages: when the raw selection is
exactly one entry equal to "All", the selection becomes the full
candidate list. -/
def exportReconcile (imageNames selected : List String) : List String :=
  if selected.length == 1 && selected.getD 0 "" == "All" then imageNames else selected

/-- Embeds the "All" handling of DeleteImages. -/
def deleteReconcile (imageNames selected : List String) : List String :=
  if selected.length == 1 && selected.getD 0 "" == "All" then imageNames else selected

/-- Embeds the "All" handling of ExportImagesToCloud. -/
def cloudExportReconcile (imageNames selected : List String) : List String :=
  if selected.length == 1 && selected.getD 0 "" == "All" then imageNames else selected

/-- Embeds the "All" handling of ImportImagesFromCloud: the selection is
rebuilt as the base name of every discovered tar file. -/
def cloudImportReconcile (tarFilePaths selected : List String) : List String :=
  if selected.length == 1 && selected.getD 0 "" == "All" then
    tarFilePaths.map goBase
  else selected

/-- Embeds the "All" handling of importFromDirectory, exactly as written:
`for _, file := range tarFiles { selectedFiles =
append(selectedFiles[1:], filepath.Base(file)) }`, i.e. a left fold that
drops the head of the accumulator and appends the next base name. -/
def dirImportReconcile (tarFiles selected : List String) : List String :=
  if selected.length == 1 && selected.getD 0 "" == "All" then
    tarFiles.foldl (fun acc file => acc.drop 1 ++ [goBase file]) selected
  else selected

/-! ### Config Resolver (config.GetBDFSConfig) -/

/-- Embeds the `BDFSConfig` struct of the config package. -/
structure BDFSConfig where
  clientID : String
  clientSecret : String
  tokenPath : String
  defaultCloudDir : String
deriving DecidableEq, Repr

/-- The process environment read by GetBDFSConfig: the four BDFS
variables, the config-file override, and the result of
`os.UserHomeDir()` (`none` when it fails). -/
structure GoEnv where
  bdfsClientID : String
  bdfsClientSecret : String
  bdfsTokenPath : String
  bdfsDefaultCloudDir : String
  bdfsConfigFile : String
  homeDir : Option String
deriving DecidableEq, Repr

/-- The error exits of GetBDFSConfig: home-directory lookup failure,
unreadable file, unparsable file, missing required fields. -/
inductive ConfigError where
  | noHomeDir
  | unreadable
  | malformed
  | incomplete
deriving DecidableEq, Repr

/-- Embeds GetBDFSConfig. The filesystem read (`os.ReadFile`) and the
TOML parse (`toml.Unmarshal` into a zero-valued struct) are external
collaborators, passed in as oracles: `readFile` returns the file bytes
or `none` on a read error, `parseToml` returns the populated struct or
`none` on a parse error. -/
def getBDFSConfig (env : GoEnv) (readFile : String → Option String)
    (parseToml : String → Option BDFSConfig) : Except ConfigError BDFSConfig :=
  if env.bdfsClientID ≠ "" ∧ env.bdfsClientSecret ≠ "" ∧ env.bdfsTokenPath ≠ "" then
    .ok { clientID := env.bdfsClientID
          clientSecret := env.bdfsClientSecret
          tokenPath := env.bdfsTokenPath
          defaultCloudDir :=
            if env.bdfsDefaultCloudDir = "" then "/" else env.bdfsDefaultCloudDir }
  else
    let pathE : Except ConfigError String :=
      if env.bdfsConfigFile ≠ "" then .ok env.bdfsConfigFile
      else
        match env.homeDir with
        | none => .error .noHomeDir
        | some home => .ok (home ++ "/.local/app/dkci/config.toml")
    match pathE with
    | .error e => .error e
    | .ok configFilePath =>
      match readFile configFilePath with
      | none => .error .unreadable
      | some data =>
        match parseToml data with
        | none => .error .malformed
        | some cfg =>
          if cfg.clientID = "" ∨ cfg.clientSecret = "" ∨ cfg.tokenPath = "" then
            .error .incomplete
          else
            .ok { cfg with defaultCloudDir :=
                    if cfg.defaultCloudDir = "" then "/" else cfg.defaultCloudDir }

/-! ### Per-item operation loops (export / delete / import) -/

/-- Outcome of one per-item operation body: `done` returns control to the
enclosing loop (`success` records whether a `[√]` or a `[x]` message was
printed), `exit` models `os.Exit(code)` terminating the invocation. -/
inductive ItemResult where
  | done (success : Bool)
  | exit (code : Nat)
deriving DecidableEq, Repr

/-- Runs a per-item body over the selected items in order, as the Go
`for` loops do: `done` moves to the next item, `exit` terminates the
whole invocation. Returns the items actually processed with their
success flag, and the exit code when the loop was aborted. -/
def runItems (f : α → ItemResult) : List α → List (α × Bool) × Option Nat
  | [] => ([], none)
  | x :: xs =>
    match f x with
    | .done b =>
      let r := runItems f xs
      ((x, b) :: r.1, r.2)
    | .exit c => ([(x, false)], some c)

/-- Collaborator outcomes for one ExportImage call: whether the image
inspection succeeds (and the OS/arch it reports), and whether ImageSave,
the output-file creation and the data copy succeed. -/
structure ExportOracle where
  inspectOk : String → Bool
  inspectOs : String → String
  inspectArch : String → String
  saveOk : String → Bool
  createOk : String → Bool
  copyOk : String → Bool

/-- Embeds the body of ExportImage: an inspection failure only downgrades
OS/arch to "" (a warning); a save, create or copy failure prints `[x]`
and returns to the loop; no path calls `os.Exit`. -/
def exportImageStep (o : ExportOracle) (destination imageName : String) : ItemResult :=
  let osInfo := if o.inspectOk imageName then o.inspectOs imageName else ""
  let archInfo := if o.inspectOk imageName then o.inspectArch imageName else ""
  let tarFilePath := destination ++ "/" ++ exportFileNameFor imageName osInfo archInfo
  if o.saveOk imageName = false then .done false
  else if o.createOk tarFilePath = false then .done false
  else if o.copyOk tarFilePath = false then .done false
  else .done true

/-- Collaborator outcome for one DeleteImage call. -/
structure DeleteOracle where
  removeOk : String → Bool

/-- Embeds the body of DeleteImage: a remove failure prints `[x]` and
returns to the loop. -/
def deleteImageStep (o : DeleteOracle) (imageName : String) : ItemResult :=
  if o.removeOk imageName = false then .done false else .done true

/-- True when importFromFile treats the file as gzip-compressed:
its lowercased path ends in ".tar.gz" or ".tgz". -/
def isGzName (filePath : String) : Bool :=
  goHasSuffix (goToLower filePath) ".tar.gz" || goHasSuffix (goToLower filePath) ".tgz"

/-- Collaborator outcomes for one importFromFile call: Docker client
creation, file open, stat, gzip-reader creation, ImageLoad, reading the
load response. (getImageInfoFromTar failure only changes the success
message, so it needs no field.) -/
structure ImportOracle where
  clientOk : Bool
  openOk : String → Bool
  statOk : String → Bool
  gzipOk : String → Bool
  loadOk : String → Bool
  readAllOk : String → Bool

/-- Embeds the body of importFromFile: every failure path calls
`os.Exit(1)`; the gzip reader is only constructed for ".tar.gz"/".tgz"
files; getImageInfoFromTar failure still prints the `[√]` message. -/
def importFromFileStep (o : ImportOracle) (filePath : String) : ItemResult :=
  if o.clientOk = false then .exit 1
  else if o.openOk filePath = false then .exit 1
  else if o.statOk filePath = false then .exit 1
  else if isGzName filePath && !o.gzipOk filePath then .exit 1
  else if o.loadOk filePath = false then .exit 1
  else if o.readAllOk filePath = false then .exit 1
  else .done true

/-- Collaborator outcomes for the cloud half of downloadAndImportFromCloud:
temp-directory creation, DownloadFile, local file creation, data copy. -/
structure CloudDownloadOracle where
  mkdirOk : Bool
  downloadOk : String → Bool
  createOk : String → Bool
  copyOk : String → Bool

/-- Embeds the body of downloadAndImportFromCloud: every download-side
failure calls `os.Exit(1)`; on success the downloaded file at
`/tmp/go-dkci/<base>` is handed to the import path (importFromFile);
failure to remove the temp file afterwards only warns. -/
def downloadAndImportStep (co : CloudDownloadOracle) (o : ImportOracle)
    (cloudFilePath : String) : ItemResult :=
  if co.mkdirOk = false then .exit 1
  else if co.downloadOk cloudFilePath = false then .exit 1
  else if co.createOk cloudFilePath = false then .exit 1
  else if co.copyOk cloudFilePath = false then .exit 1
  else importFromFileStep o ("/tmp/go-dkci" ++ "/" ++ goBase cloudFilePath)

end GoDkci

namespace GoDkci

/-! ### Helper lemmas shared by the claim theorems -/

theorem sanitizeName_data (n : String) :
    (sanitizeName n).data = n.data.map (fun c => if c = '/' then '·' else c) := rfl

theorem slash_not_mem_sanitizeName (n : String) : '/' ∉ (sanitizeName n).data := by
  intro h
  rw [sanitizeName_data] at h
  obtain ⟨a, _, ha⟩ := List.mem_map.1 h
  by_cases hc : a = '/'
  · rw [if_pos hc] at ha
    exact absurd ha (by decide)
  · rw [if_neg hc] at ha
    exact hc ha

theorem goJoin_not_mem (c : Char) (sep : String) (hsep : c ∉ sep.data) :
    ∀ parts : List String, (∀ p ∈ parts, c ∉ p.data) → c ∉ (goJoin sep parts).data
  | [], _ => by simp [goJoin]
  | [x], h => by simpa [goJoin] using h x (by simp)
  | x :: y :: xs, h => by
    have ih := goJoin_not_mem c sep hsep (y :: xs)
      (fun p hp => h p (List.mem_cons_of_mem _ hp))
    intro hc
    rw [goJoin, String.data_append, String.data_append] at hc
    rcases List.mem_append.1 hc with hc | hc
    · rcases List.mem_append.1 hc with hc | hc
      · exact h x (by simp) hc
      · exact hsep hc
    · exact ih hc

theorem suffixParts_not_slash (t o a : String)
    (ht : '/' ∉ t.data) (ho : '/' ∉ o.data) (ha : '/' ∉ a.data) :
    ∀ p ∈ suffixParts t o a, '/' ∉ p.data := by
  intro p hp
  simp only [suffixParts, List.nil_append, List.mem_append] at hp
  rcases hp with hp | hp
  · rcases hp with hp | hp
    · split at hp <;> simp only [List.mem_singleton] at hp <;> subst hp
      · exact ht
      · decide
    · split at hp <;> simp only [List.mem_singleton] at hp <;> subst hp
      · exact ho
      · decide
  · split at hp <;> simp only [List.mem_singleton] at hp <;> subst hp
    · exact ha
    · decide


/-! ### Claim theorems -/

/-- C1: the claim says every operation offering the "All" sentinel expands
it to the full candidate list in original order. Local export, delete,
cloud export and cloud directory import do; local directory import does
not: at candidates ["a.tar", "b.tar"] with raw selection ["All"], its
sentinel replacement loop keeps only the last file. -/
theorem dirImport_all_keeps_only_last :
    dirImportReconcile ["a.tar", "b.tar"] ["All"] = ["b.tar"] ∧
    dirImportReconcile ["a.tar", "b.tar"] ["All"] ≠ ["a.tar", "b.tar"] ∧
    exportReconcile ["a.tar", "b.tar"] ["All"] = ["a.tar", "b.tar"] ∧
    deleteReconcile ["a.tar", "b.tar"] ["All"] = ["a.tar", "b.tar"] ∧
    cloudExportReconcile ["a.tar", "b.tar"] ["All"] = ["a.tar", "b.tar"] ∧
    cloudImportReconcile ["a.tar", "b.tar"] ["All"] = ["a.tar", "b.tar"] := by
  decide

/-- C2 counterexample: the claim quantifies over the full user-visible
reference including the tag portion. The reference "a:b/c" contains '/',
yet its export filename "a_b/c_unknown_unknown.tar" still contains the
literal '/' because only the name portion is sanitized. -/
theorem exportFileName_slash_counterexample :
    '/' ∈ "a:b/c".data ∧ '/' ∈ (exportFileNameFor "a:b/c" "" "").data := by
  decide

/-- C2 amended: for every image reference containing '/', as long as the
tag portion (the text after the first ':') and the inspected OS and
architecture strings contain no '/', the canonical export filename
contains no literal '/'. -/
theorem exportFileName_no_slash (n o a : String)
    (_hn : '/' ∈ n.data)
    (ht : '/' ∉ (splitNameTag n).2.data)
    (ho : '/' ∉ o.data) (ha : '/' ∉ a.data) :
    '/' ∉ (exportFileNameFor n o a).data := by
  intro h
  have hJ : '/' ∉ (goJoin "_" (suffixParts (splitNameTag n).2 o a)).data :=
    goJoin_not_mem '/' "_" (by decide) _ (suffixParts_not_slash _ o a ht ho ha)
  have hS : '/' ∉ (sanitizeName (splitNameTag n).1).data := slash_not_mem_sanitizeName _
  simp only [exportFileNameFor, canonicalFilename, String.data_append,
    List.mem_append] at h
  rcases h with ((h | h) | h) | h
  · exact hS h
  · exact absurd h (by decide)
  · exact hJ h
  · exact absurd h (by decide)

/-- C2 witness: the amended theorem applied at the reference "my/app"
with empty OS and architecture. -/
theorem exportFileName_no_slash_witness :
    ('/' ∈ "my/app".data ∧ '/' ∉ (splitNameTag "my/app").2.data ∧
      '/' ∉ ("" : String).data) ∧
    '/' ∉ (exportFileNameFor "my/app" "" "").data :=
  ⟨by decide, exportFileName_no_slash "my/app" "" "" (by decide) (by decide)
    (by decide) (by decide)⟩

/-- C4: the substring filter is the same function at every data source:
the grep decision transcribed from the daemon image list, the local
directory scan and the remote file listing agree on every candidate
string and pattern. -/
theorem grepFilter_source_independent :
    ∀ candidate pattern : String,
      daemonGrepFilter candidate pattern = dirScanGrepFilter candidate pattern ∧
      dirScanGrepFilter candidate pattern = cloudListGrepFilter candidate pattern :=
  fun _ _ => ⟨rfl, rfl⟩

/-- C7: canonicalFilename produces
"<sanitized-name>_<tag>_<os>_<arch>.tar" with '/' replaced by '·' in the
name, empty tag defaulting to "latest", empty OS/arch to "unknown"; in
particular canonicalFilename "my/app" "" "" "" is
"my·app_latest_unknown_unknown.tar". -/
theorem canonicalFilename_format :
    (∀ n t o a, canonicalFilename n t o a =
      sanitizeName n ++ "_" ++ (if t = "" then "latest" else t) ++ "_" ++
      (if o = "" then "unknown" else o) ++ "_" ++
      (if a = "" then "unknown" else a) ++ ".tar") ∧
    (∀ n, (sanitizeName n).data = n.data.map (fun c => if c = '/' then '·' else c)) ∧
    canonicalFilename "my/app" "" "" "" = "my·app_latest_unknown_unknown.tar" := by
  refine ⟨?_, fun n => rfl, by decide⟩
  intro n t o a
  by_cases h1 : t = "" <;> by_cases h2 : o = "" <;> by_cases h3 : a = "" <;>
    · apply String.ext
      simp [canonicalFilename, suffixParts, goJoin, h1, h2, h3,
        String.data_append, List.append_assoc]

/-- C10: a repo tag equal to "<none>:<none>" never reaches the candidate
list, and the candidate construction is the same function in local
export, delete and cloud export. -/
theorem noneTag_excluded :
    (∀ (images : List (List String)) (pattern : String),
      "<none>:<none>" ∉ exportCandidates images pattern ∧
      "<none>:<none>" ∉ deleteCandidates images pattern ∧
      "<none>:<none>" ∉ cloudExportCandidates images pattern) ∧
    (∀ images pattern, exportCandidates images pattern = deleteCandidates images pattern ∧
      deleteCandidates images pattern = cloudExportCandidates images pattern) := by
  constructor
  · intro images pattern
    refine ⟨?_, ?_, ?_⟩ <;>
    · intro h
      simp only [exportCandidates, deleteCandidates, cloudExportCandidates,
        List.mem_flatMap, List.mem_filter] at h
      obtain ⟨tags, _, _, hpred⟩ := h
      simp at hpred
  · exact fun _ _ => ⟨rfl, rfl⟩


/-- C3: tar-candidate discovery retains exactly the entries whose
(lowercased) name ends in ".tar", ".tar.gz" or ".tgz" and whose
extension-stripped base name passes the substring filter; this holds for
the local directory scan and for the cloud listing, and "IMAGE.TAR" is
retained. -/
theorem tarCandidates_characterization :
    (∀ (paths : List String) (pattern x : String),
      x ∈ findTarFilesInDirectory paths pattern ↔
        x ∈ paths ∧
        (goHasSuffix (goToLower (goBase x)) ".tar" = true ∨
         goHasSuffix (goToLower (goBase x)) ".tar.gz" = true ∨
         goHasSuffix (goToLower (goBase x)) ".tgz" = true) ∧
        dirScanGrepFilter (goTrimSuffix (goBase x) (goExt x)) pattern = true) ∧
    (∀ (paths : List String) (pattern x : String),
      x ∈ cloudTarCandidates paths pattern ↔
        x ∈ paths ∧
        (goHasSuffix (goToLower x) ".tar" = true ∨
         goHasSuffix (goToLower x) ".tar.gz" = true ∨
         goHasSuffix (goToLower x) ".tgz" = true) ∧
        cloudListGrepFilter (goTrimSuffix (goBase x) (goExt x)) pattern = true) ∧
    "IMAGE.TAR" ∈ findTarFilesInDirectory ["IMAGE.TAR"] "" := by
  refine ⟨?_, ?_, by decide⟩ <;> intro paths pattern x <;>
    simp [findTarFilesInDirectory, cloudTarCandidates, List.mem_filter,
      Bool.and_eq_true, Bool.or_eq_true, and_assoc, or_assoc]

/-- C5: when the three BDFS environment variables are non-empty, config
resolution builds the record from the environment alone; the result does
not depend on the file-reading or TOML-parsing collaborators at all, so
any two config-file contents give the identical record. -/
theorem config_env_precedence (env : GoEnv)
    (rf1 rf2 : String → Option String) (pt1 pt2 : String → Option BDFSConfig)
    (h1 : env.bdfsClientID ≠ "") (h2 : env.bdfsClientSecret ≠ "")
    (h3 : env.bdfsTokenPath ≠ "") :
    getBDFSConfig env rf1 pt1 = getBDFSConfig env rf2 pt2 ∧
    getBDFSConfig env rf1 pt1 =
      .ok { clientID := env.bdfsClientID
            clientSecret := env.bdfsClientSecret
            tokenPath := env.bdfsTokenPath
            defaultCloudDir :=
              if env.bdfsDefaultCloudDir = "" then "/"
              else env.bdfsDefaultCloudDir } := by
  unfold getBDFSConfig
  simp only [if_pos (show env.bdfsClientID ≠ "" ∧ env.bdfsClientSecret ≠ "" ∧
    env.bdfsTokenPath ≠ "" from ⟨h1, h2, h3⟩)]
  exact ⟨trivial, trivial⟩

/-- C5 witness: the theorem applied at a concrete environment, once with
an unreadable file and once with a readable file holding different
values. -/
theorem config_env_precedence_witness :
    (("id" : String) ≠ "" ∧ ("sec" : String) ≠ "" ∧ ("tok" : String) ≠ "") ∧
    (getBDFSConfig ⟨"id", "sec", "tok", "", "", none⟩
        (fun _ => none) (fun _ => none) =
      getBDFSConfig ⟨"id", "sec", "tok", "", "", none⟩
        (fun _ => some "file") (fun _ => some ⟨"other", "other", "other", "/elsewhere"⟩) ∧
     getBDFSConfig ⟨"id", "sec", "tok", "", "", none⟩
        (fun _ => none) (fun _ => none) = .ok ⟨"id", "sec", "tok", "/"⟩) :=
  ⟨by decide, config_env_precedence ⟨"id", "sec", "tok", "", "", none⟩ _ _ _ _
    (by decide) (by decide) (by decide)⟩

/-- C6: in the file fallback, after a successful read and parse the
resolution fails with the incomplete-config error exactly when client
id, client secret or token path is empty, and a successful resolution
turns an empty parsed default cloud directory into "/". -/
theorem config_file_fallback (env : GoEnv) (rf : String → Option String)
    (pt : String → Option BDFSConfig) (data : String) (cfg : BDFSConfig)
    (henv : ¬(env.bdfsClientID ≠ "" ∧ env.bdfsClientSecret ≠ "" ∧ env.bdfsTokenPath ≠ ""))
    (hfile : env.bdfsConfigFile ≠ "")
    (hread : rf env.bdfsConfigFile = some data)
    (hparse : pt data = some cfg) :
    (getBDFSConfig env rf pt = .error .incomplete ↔
      (cfg.clientID = "" ∨ cfg.clientSecret = "" ∨ cfg.tokenPath = "")) ∧
    (∀ r, getBDFSConfig env rf pt = .ok r → cfg.defaultCloudDir = "" →
      r.defaultCloudDir = "/") := by
  have hstep : getBDFSConfig env rf pt =
      if cfg.clientID = "" ∨ cfg.clientSecret = "" ∨ cfg.tokenPath = "" then
        .error .incomplete
      else
        .ok { cfg with defaultCloudDir :=
                if cfg.defaultCloudDir = "" then "/" else cfg.defaultCloudDir } := by
    unfold getBDFSConfig
    rw [if_neg henv, if_pos hfile]
    simp only [hread, hparse]
  rw [hstep]
  constructor
  · by_cases hc : cfg.clientID = "" ∨ cfg.clientSecret = "" ∨ cfg.tokenPath = ""
    · simp [hc]
    · simp [hc]
  · intro r hr hd
    by_cases hc : cfg.clientID = "" ∨ cfg.clientSecret = "" ∨ cfg.tokenPath = ""
    · rw [if_pos hc] at hr
      exact absurd hr (by simp)
    · rw [if_neg hc] at hr
      cases hr
      simp [hd]


/-- C6 witness: the theorem applied to an environment with no BDFS
variables and an explicit config-file path, whose parsed contents have
complete credentials and an empty default directory. -/
theorem config_file_fallback_witness :
    (¬(("" : String) ≠ "" ∧ ("" : String) ≠ "" ∧ ("" : String) ≠ "") ∧
      ("/cfg.toml" : String) ≠ "" ∧
      (fun _ : String => some "filedata") "/cfg.toml" = some "filedata" ∧
      (fun _ : String => some (⟨"fid", "fsec", "ftok", ""⟩ : BDFSConfig)) "filedata" =
        some ⟨"fid", "fsec", "ftok", ""⟩) ∧
    ((getBDFSConfig ⟨"", "", "", "", "/cfg.toml", none⟩
        (fun _ => some "filedata") (fun _ => some ⟨"fid", "fsec", "ftok", ""⟩) =
        .error .incomplete ↔
      (("fid" : String) = "" ∨ ("fsec" : String) = "" ∨ ("ftok" : String) = "")) ∧
     (∀ r, getBDFSConfig ⟨"", "", "", "", "/cfg.toml", none⟩
        (fun _ => some "filedata") (fun _ => some ⟨"fid", "fsec", "ftok", ""⟩) = .ok r →
        (BDFSConfig.mk "fid" "fsec" "ftok" "").defaultCloudDir = "" →
        r.defaultCloudDir = "/")) :=
  ⟨⟨by decide, by decide, rfl, rfl⟩,
    config_file_fallback ⟨"", "", "", "", "/cfg.toml", none⟩
      (fun _ => some "filedata") (fun _ => some ⟨"fid", "fsec", "ftok", ""⟩)
      "filedata" ⟨"fid", "fsec", "ftok", ""⟩
      (by decide) (by decide) rfl rfl⟩

/-! ### Loop-continuation helpers -/

theorem exportImageStep_done (o : ExportOracle) (destination imageName : String) :
    ∃ b, exportImageStep o destination imageName = .done b := by
  unfold exportImageStep
  dsimp only
  repeat' split
  all_goals exact ⟨_, rfl⟩

theorem deleteImageStep_done (o : DeleteOracle) (imageName : String) :
    ∃ b, deleteImageStep o imageName = .done b := by
  unfold deleteImageStep
  split
  · exact ⟨false, rfl⟩
  · exact ⟨true, rfl⟩

theorem runItems_total (f : α → ItemResult) (hf : ∀ x, ∃ b, f x = .done b) :
    ∀ l : List α, (runItems f l).2 = none ∧ (runItems f l).1.map Prod.fst = l := by
  intro l
  induction l with
  | nil => exact ⟨rfl, rfl⟩
  | cons x xs ih =>
    obtain ⟨b, hb⟩ := hf x
    simp [runItems, hb, ih.1, ih.2]

theorem importStep_cases (o : ImportOracle) (x : String) :
    importFromFileStep o x = .exit 1 ∨
    (importFromFileStep o x = .done true ∧ o.openOk x = true ∧
      (isGzName x = true → o.gzipOk x = true) ∧ o.loadOk x = true) := by
  unfold importFromFileStep
  split
  · exact Or.inl rfl
  · split
    · exact Or.inl rfl
    · split
      · exact Or.inl rfl
      · split
        · exact Or.inl rfl
        · split
          · exact Or.inl rfl
          · split
            · exact Or.inl rfl
            · rename_i hcl hop hst hgz hld hra
              refine Or.inr ⟨rfl, ?_, ?_, ?_⟩
              · revert hop
                cases o.openOk x <;> simp
              · intro hg
                revert hgz
                rw [hg]
                cases o.gzipOk x <;> simp
              · revert hld
                cases o.loadOk x <;> simp

/-- C8: during export and delete over a selection, every per-item failure
returns to the loop: for every collaborator behavior the loop never
exits and processes exactly the selected items in order. -/
theorem export_delete_loops_continue (eo : ExportOracle) (destination : String)
    (dl : DeleteOracle) (names : List String) :
    ((runItems (exportImageStep eo destination) names).2 = none ∧
     (runItems (exportImageStep eo destination) names).1.map Prod.fst = names) ∧
    ((runItems (deleteImageStep dl) names).2 = none ∧
     (runItems (deleteImageStep dl) names).1.map Prod.fst = names) :=
  ⟨runItems_total _ (exportImageStep_done eo destination) names,
   runItems_total _ (deleteImageStep_done dl) names⟩

/-- C9: during import, a failure to open, decompress or load one file
(locally, or to download it from the cloud) terminates the invocation
with exit code 1 and the remaining selected files are never processed. -/
theorem import_loop_aborts :
    (∀ (o : ImportOracle) (x : String) (rest : List String),
      (o.openOk x = false ∨ (isGzName x = true ∧ o.gzipOk x = false) ∨
        o.loadOk x = false) →
      runItems (importFromFileStep o) (x :: rest) = ([(x, false)], some 1)) ∧
    (∀ (co : CloudDownloadOracle) (o : ImportOracle) (x : String) (rest : List String),
      co.downloadOk x = false →
      runItems (downloadAndImportStep co o) (x :: rest) = ([(x, false)], some 1)) := by
  constructor
  · intro o x rest h
    have hex : importFromFileStep o x = .exit 1 := by
      rcases importStep_cases o x with hc | ⟨_, h1, h2, h3⟩
      · exact hc
      · rcases h with h | ⟨hg, h⟩ | h
        · rw [h1] at h
          exact absurd h (by decide)
        · rw [h2 hg] at h
          exact absurd h (by decide)
        · rw [h3] at h
          exact absurd h (by decide)
    simp [runItems, hex]
  · intro co o x rest h
    have hex : downloadAndImportStep co o x = .exit 1 := by
      unfold downloadAndImportStep
      split
      all_goals rfl
    simp [runItems, hex]

/-- C9 witness: the theorem applied to an oracle that fails to open
"a.tar": with selection ["a.tar", "b.tar"] only "a.tar" is touched and
the invocation exits with code 1. -/
theorem import_loop_aborts_witness :
    ((⟨true, fun s => !(s == "a.tar"), fun _ => true, fun _ => true,
        fun _ => true, fun _ => true⟩ : ImportOracle).openOk "a.tar" = false) ∧
    runItems (importFromFileStep ⟨true, fun s => !(s == "a.tar"), fun _ => true,
        fun _ => true, fun _ => true, fun _ => true⟩) ["a.tar", "b.tar"] =
      ([("a.tar", false)], some 1) :=
  ⟨by decide, import_loop_aborts.1 ⟨true, fun s => !(s == "a.tar"), fun _ => true,
    fun _ => true, fun _ => true, fun _ => true⟩ "a.tar" ["b.tar"]
    (Or.inl (by decide))⟩

end GoDkci
